import Mathlib

/-!
Verification of the fuel-BI backend against its natural-language
specification.

The development shallowly embeds two groups of code:

1. The FIFO COGS allocation engine (`backend/fifo/fifo_engine.py` is not
   part of the available sources — only its callers in
   `backend/api/app.py` are — so the engine is modelled from the spec's
   own algorithm, data-model and contract sentences, as noted on each
   definition).

2. Code present in the sources: the report/dashboard aggregation loops of
   `backend/api/app.py`, the report combiner
   `backend/parsers/parse_combined_sales.py`, and the import driver
   `backend/batch_import_combined_sales.py`, embedded directly from the
   Python source.

Volumes, costs and revenues are modelled as rationals (`ℚ`): the spec's
numeric policy is fixed-precision decimal arithmetic, which embeds
exactly into `ℚ`.
-/

namespace FuelBI

/-- Modelled from the spec: batch status, `active` or `depleted`
(spec section 3, Batch data model). -/
inductive BatchStatus where
  | active
  | depleted
deriving DecidableEq, Repr

/-- Modelled from the spec: one inbound inventory lot
(spec section 3, Batch: identity, attributes, invariant). -/
structure Batch where
  batch_id : Nat
  product_code : String
  acquisition_date : Nat
  acquired_volume : ℚ
  remaining_volume : ℚ
  unit_cost : ℚ
  status : BatchStatus
deriving DecidableEq, Repr

/-- Modelled from the spec: one line item of an allocation result
`(batch id, volume taken from that batch, cost contribution)`. -/
structure LineItem where
  batch_id : Nat
  volume : ℚ
  cost : ℚ
deriving DecidableEq, Repr

/-- Modelled from the spec: output of one allocation (spec section 3,
Allocation Result). -/
structure AllocationResult where
  line_items : List LineItem
  total_volume : ℚ
  total_cost : ℚ
  shortfall : ℚ
deriving DecidableEq, Repr

/-- Modelled from the spec: the ledger ordering key — ascending by
acquisition date, ties broken by batch id ascending (spec section 4.1). -/
def batchLE (a b : Batch) : Prop :=
  a.acquisition_date < b.acquisition_date ∨
    (a.acquisition_date = b.acquisition_date ∧ a.batch_id ≤ b.batch_id)

instance : DecidableRel batchLE := fun a b => by
  unfold batchLE; infer_instance

instance : IsTotal Batch batchLE where
  total a b := by
    unfold batchLE
    rcases Nat.lt_trichotomy a.acquisition_date b.acquisition_date with h | h | h
    · exact Or.inl (Or.inl h)
    · rcases Nat.le_total a.batch_id b.batch_id with h2 | h2
      · exact Or.inl (Or.inr ⟨h, h2⟩)
      · exact Or.inr (Or.inr ⟨h.symm, h2⟩)
    · exact Or.inr (Or.inl h)

instance : IsTrans Batch batchLE where
  trans a b c hab hbc := by
    unfold batchLE at *
    rcases hab with h1 | ⟨h1, h1b⟩ <;> rcases hbc with h2 | ⟨h2, h2b⟩
    · exact Or.inl (h1.trans h2)
    · exact Or.inl (h2 ▸ h1)
    · exact Or.inl (h1 ▸ h2)
    · exact Or.inr ⟨h1.trans h2, h1b.trans h2b⟩

/-- Modelled from the spec: eligibility filter — only batches of the
requested product with `status = active` and `acquisition_date ≥ cutoff`
(or no cutoff configured) are eligible (spec sections 3 and 4.1). -/
def batchEligible (product_code : String) (cutoff_date : Option Nat) (b : Batch) : Bool :=
  b.product_code = product_code && b.status = BatchStatus.active &&
    (match cutoff_date with
     | none => true
     | some c => c ≤ b.acquisition_date)

/-- Modelled from the spec: `eligible_batches(product_code, cutoff_date)`
returns the eligible batches ordered ascending by acquisition date, ties
broken by batch id ascending (spec section 4.1). -/
def eligible_batches (ledger : List Batch) (product_code : String)
    (cutoff_date : Option Nat) : List Batch :=
  List.insertionSort batchLE (ledger.filter (batchEligible product_code cutoff_date))

/-- Modelled from the spec: the allocation loop — iterate the ordered
batches; take `take = min(remaining_volume, volume_still_needed)`; append
a line item `(batch_id, take, take × unit_cost)`; reduce the outstanding
volume by `take`; stop when it reaches 0 or the sequence is exhausted
(spec section 4.2). -/
def allocateGo (need : ℚ) : List Batch → List LineItem
  | [] => []
  | b :: rest =>
    if need = 0 then []
    else
      let take := min b.remaining_volume need
      { batch_id := b.batch_id, volume := take, cost := take * b.unit_cost } ::
        allocateGo (need - take) rest

/-- Sum of line-item volumes. -/
def itemsVolume (items : List LineItem) : ℚ := (items.map LineItem.volume).sum

/-- Sum of line-item costs. -/
def itemsCost (items : List LineItem) : ℚ := (items.map LineItem.cost).sum

/-- Modelled from the spec:
`allocate(requested_volume, ordered_batches) → AllocationResult`, with the
shortfall equal to the unmet volume (spec section 4.2). -/
def allocate (requested_volume : ℚ) (ordered_batches : List Batch) : AllocationResult :=
  let items := allocateGo requested_volume ordered_batches
  { line_items := items
    total_volume := itemsVolume items
    total_cost := itemsCost items
    shortfall := requested_volume - itemsVolume items }

/-- Modelled from the spec: error taxonomy of the engine
(spec section 7). -/
inductive EngineError where
  | invalidRequest
  | invariantViolation
  | persistenceUnavailable
deriving DecidableEq, Repr

/-- Modelled from the spec: `apply_consumption(batch_id, volume)` — fails
with `InvariantViolation` if `volume > remaining_volume` (or the batch is
absent); otherwise decrements `remaining_volume` of the first batch with
that id and flips status to `depleted` when it reaches zero
(spec section 4.1). -/
def apply_consumption : List Batch → Nat → ℚ → Except EngineError (List Batch)
  | [], _, _ => .error .invariantViolation
  | b :: rest, bid, vol =>
    if b.batch_id = bid then
      if b.remaining_volume < vol then .error .invariantViolation
      else
        .ok ({ b with
                remaining_volume := b.remaining_volume - vol,
                status := if b.remaining_volume - vol = 0 then .depleted else b.status } :: rest)
    else
      (apply_consumption rest bid vol).map (b :: ·)

/-- Modelled from the spec: a commit applies each line item via the
ledger's mutation contract in the same order as computed
(spec section 4.3). -/
def applyItems : List Batch → List LineItem → Except EngineError (List Batch)
  | ledger, [] => .ok ledger
  | ledger, item :: rest => do
    let ledger2 ← apply_consumption ledger item.batch_id item.volume
    applyItems ledger2 rest

/-- Modelled from the spec: `simulate(request) → AllocationResult` — reads
the ledger snapshot, runs the Allocation Algorithm, returns the result,
with no mutation of the ledger.  Requests with negative volume are
rejected as `InvalidRequest` before any ledger access; a zero-volume
request succeeds trivially (spec sections 4.2, 4.3 and 7; the explicit
edge case and Scenario D of the spec state that a zero request is not an
error, so only negative volumes are rejected). -/
def simulate (ledger : List Batch) (product_code : String) (cutoff_date : Option Nat)
    (requested_volume : ℚ) : Except EngineError AllocationResult :=
  if requested_volume < 0 then .error .invalidRequest
  else .ok (allocate requested_volume (eligible_batches ledger product_code cutoff_date))

/-- Modelled from the spec: `commit(request)` — reads the ledger snapshot,
runs the Allocation Algorithm, then applies each line item in order
(spec section 4.3). -/
def commit (ledger : List Batch) (product_code : String) (cutoff_date : Option Nat)
    (requested_volume : ℚ) : Except EngineError (AllocationResult × List Batch) :=
  if requested_volume < 0 then .error .invalidRequest
  else
    let res := allocate requested_volume (eligible_batches ledger product_code cutoff_date)
    (applyItems ledger res.line_items).map (fun l2 => (res, l2))

/-- Modelled from the spec: the source engine conflates simulate and
commit via a boolean flag (spec section 9, design note); with
`update_batches = false` the call is a simulate and returns the ledger
unchanged, with `update_batches = true` it is a commit. -/
def calculate_sale_cogs (ledger : List Batch) (product_code : String)
    (cutoff_date : Option Nat) (volume_sold : ℚ) (update_batches : Bool) :
    Except EngineError (AllocationResult × List Batch) :=
  if update_batches then
    commit ledger product_code cutoff_date volume_sold
  else
    (simulate ledger product_code cutoff_date volume_sold).map (fun r => (r, ledger))

/-- A sequence of simulate-mode COGS calculations as performed by the
reporting endpoints (one call per sale, threading the ledger state; a
per-sale failure leaves the ledger as it was, mirroring the `except:
continue` in `get_fifo_report`). -/
def simulateMany (cutoff_date : Option Nat) (ledger : List Batch) :
    List (String × ℚ) → List Batch
  | [] => ledger
  | (p, v) :: rest =>
    match calculate_sale_cogs ledger p cutoff_date v false with
    | .ok (_, ledger2) => simulateMany cutoff_date ledger2 rest
    | .error _ => simulateMany cutoff_date ledger rest

/-- A sequence of commits against a ledger, each request giving a product
code and a volume; the engine's cutoff is fixed per scope
(spec section 4.3). -/
def commitMany (cutoff_date : Option Nat) (ledger : List Batch) :
    List (String × ℚ) → Except EngineError (List (String × AllocationResult) × List Batch)
  | [] => .ok ([], ledger)
  | (p, v) :: rest => do
    let (res, ledger2) ← commit ledger p cutoff_date v
    let (results, ledger3) ← commitMany cutoff_date ledger2 rest
    .ok ((p, res) :: results, ledger3)

/-- Total acquired volume of a product over a ledger. -/
def sumAcquired (product_code : String) (ledger : List Batch) : ℚ :=
  (ledger.map (fun b => if b.product_code = product_code then b.acquired_volume else 0)).sum

/-- Total remaining volume of a product over a ledger. -/
def sumRemaining (product_code : String) (ledger : List Batch) : ℚ :=
  (ledger.map (fun b => if b.product_code = product_code then b.remaining_volume else 0)).sum

/-- Total remaining volume over a batch sequence (all products). -/
def sumRemainingAll (bs : List Batch) : ℚ := (bs.map Batch.remaining_volume).sum

/-- Product code of the first batch in the ledger carrying a given id. -/
def firstProd (ledger : List Batch) (bid : Nat) : Option String :=
  (ledger.find? (fun b => b.batch_id = bid)).map Batch.product_code

/-- Committed volume for one product in a list of commit results. -/
def committedVolume (product_code : String)
    (results : List (String × AllocationResult)) : ℚ :=
  (results.map (fun pr =>
    if pr.1 = product_code then itemsVolume pr.2.line_items else 0)).sum

/-- Spec scenarios A-D: batch1, acquired Jan 1 (encoded 101), 100 units at
2.00 per litre. -/
def batch1 : Batch :=
  { batch_id := 1, product_code := "GC", acquisition_date := 101,
    acquired_volume := 100, remaining_volume := 100, unit_cost := 2,
    status := .active }

/-- Spec scenarios A-D: batch2, acquired Jan 5 (encoded 105), 50 units at
2.50 per litre. -/
def batch2 : Batch :=
  { batch_id := 2, product_code := "GC", acquisition_date := 105,
    acquired_volume := 50, remaining_volume := 50, unit_cost := 5/2,
    status := .active }

/-- Spec scenarios A-D: the two-batch ledger (listed newest-first so that
`eligible_batches` must actually re-order it). -/
def scenario_ledger : List Batch := [batch2, batch1]

/-- The ledger after committing 30 units of GC against the scenario
ledger (batch1 decremented to 70, list kept in ledger order). -/
def scenario_ledger_after : List Batch :=
  [batch2,
   { batch_id := 1, product_code := "GC", acquisition_date := 101,
     acquired_volume := 100, remaining_volume := 70, unit_cost := 2,
     status := .active }]

/-- The commit results of committing 30 units of GC against the scenario
ledger. -/
def scenario_results : List (String × AllocationResult) :=
  [("GC", { line_items := [{ batch_id := 1, volume := 30, cost := 60 }],
            total_volume := 30, total_cost := 60, shortfall := 0 })]

/-- Python runtime errors surfacing in the embedded code. -/
inductive PyErr where
  | divisionByZero
  | attributeError
  | typeError
deriving DecidableEq, Repr

/-- Python division: raises on a zero denominator, otherwise exact
division (both `Decimal` and `float` division in the embedded code). -/
def pyDiv (a b : ℚ) : Except PyErr ℚ :=
  if b = 0 then .error .divisionByZero else .ok (a / b)

/-- Embedded from `backend/api/app.py:445`:
`margin_pct = (profit / revenue * 100) if revenue > 0 else Decimal('0')`. -/
def margin_pct (profit revenue : ℚ) : Except PyErr ℚ :=
  if 0 < revenue then (pyDiv profit revenue).map (· * 100) else .ok 0

/-- Embedded from `backend/api/app.py:502`:
`overall_margin = (total_profit / total_revenue * 100) if total_revenue > 0
else Decimal('0')`. -/
def overall_margin (total_profit total_revenue : ℚ) : Except PyErr ℚ :=
  if 0 < total_revenue then (pyDiv total_profit total_revenue).map (· * 100) else .ok 0

/-- Embedded from `backend/api/app.py:504-505`:
`adjusted_profit = total_profit - total_loss_cost;
adjusted_margin = (adjusted_profit / total_revenue * 100) if
total_revenue > 0 else Decimal('0')`. -/
def adjusted_margin (total_profit total_loss_cost total_revenue : ℚ) : Except PyErr ℚ :=
  if 0 < total_revenue then
    (pyDiv (total_profit - total_loss_cost) total_revenue).map (· * 100)
  else .ok 0

/-- Embedded from `backend/api/app.py:835` (vendas dashboard):
`float(total_revenue / total_volume) if total_volume > 0 else 0`. -/
def dashboard_avg_price (total_revenue total_volume : ℚ) : Except PyErr ℚ :=
  if 0 < total_volume then pyDiv total_revenue total_volume else .ok 0

/-- Embedded from `backend/api/app.py:1008` (compras dashboard):
`float(total_cost / total_volume) if total_volume > 0 else 0`. -/
def dashboard_avg_cost (total_cost total_volume : ℚ) : Except PyErr ℚ :=
  if 0 < total_volume then pyDiv total_cost total_volume else .ok 0

/-- One row of the `pump_sales_intraday` query in `get_fifo_report`
(`backend/api/app.py:419-425`). -/
structure SaleRow where
  id : Nat
  sale_date : String
  product_code : String
  product_name : String
  volume_sold : ℚ
  sale_price_per_liter : ℚ
  total_revenue : ℚ
deriving DecidableEq, Repr

/-- The engine's per-sale answer as consumed by `get_fifo_report`
(`cogs_result['total_cogs']`). -/
structure CogsResult where
  total_cogs : ℚ
deriving DecidableEq, Repr

/-- One entry of the `results` list built by `get_fifo_report`
(`backend/api/app.py:447-457`). -/
structure ReportRow where
  sale_id : Nat
  date : String
  product_code : String
  product_name : String
  volume : ℚ
  revenue : ℚ
  cogs : ℚ
  profit : ℚ
  margin_pct : ℚ
deriving DecidableEq, Repr

/-- Embedded from `backend/api/app.py:433-457`: the body of the per-sale
`try` block — call the engine, then derive revenue, cogs, profit and
margin; any exception escapes to the surrounding handler.  The engine
call is abstracted as a fallible function parameter. -/
def processSale (cogs : SaleRow → Except PyErr CogsResult) (sale : SaleRow) :
    Except PyErr ReportRow := do
  let cogs_result ← cogs sale
  let revenue := sale.total_revenue
  let cogsv := cogs_result.total_cogs
  let profit := revenue - cogsv
  let m ← margin_pct profit revenue
  pure { sale_id := sale.id, date := sale.sale_date,
         product_code := sale.product_code, product_name := sale.product_name,
         volume := sale.volume_sold, revenue := revenue, cogs := cogsv,
         profit := profit, margin_pct := m }

/-- Embedded from `backend/api/app.py:428-464`: the report loop — each
sale is processed inside `try`; on an exception the sale is skipped
(`except Exception: continue`) and contributes nothing to the rows,
to `total_revenue`, or to `total_cogs`. -/
def processSales (cogs : SaleRow → Except PyErr CogsResult) :
    List SaleRow → List ReportRow × ℚ × ℚ
  | [] => ([], 0, 0)
  | sale :: rest =>
    match processSale cogs sale with
    | .error _ => processSales cogs rest
    | .ok row =>
      let (rows, rev, cg) := processSales cogs rest
      (row :: rows, sale.total_revenue + rev, row.cogs + cg)

/-- The summary object returned by `get_fifo_report`
(`backend/api/app.py:507-522`, sales-side fields). -/
structure FifoReport where
  sales_count : Nat
  total_revenue : ℚ
  total_cogs : ℚ
  total_profit : ℚ
  overall_margin : ℚ
  adjusted_profit : ℚ
  adjusted_margin : ℚ
  sales : List ReportRow
deriving DecidableEq, Repr

/-- Embedded from `backend/api/app.py:428-522`: the sales side of the
FIFO report — run the per-sale loop, then compute the totals and guarded
margins (`total_loss_cost` comes from the adjustments query, passed in
here). -/
def get_fifo_report (cogs : SaleRow → Except PyErr CogsResult)
    (sales : List SaleRow) (total_loss_cost : ℚ) : Except PyErr FifoReport := do
  let (rows, total_revenue, total_cogs) := processSales cogs sales
  let total_profit := total_revenue - total_cogs
  let om ← overall_margin total_profit total_revenue
  let am ← adjusted_margin total_profit total_loss_cost total_revenue
  pure { sales_count := rows.length, total_revenue := total_revenue,
         total_cogs := total_cogs, total_profit := total_profit,
         overall_margin := om, adjusted_profit := total_profit - total_loss_cost,
         adjusted_margin := am, sales := rows }

/-- Round-half-to-even on the integers below a rational, as Python's
built-in `round` does on exact halves. -/
def roundHalfEven (x : ℚ) : ℤ :=
  let f := x.floor
  let r := x - f
  if r < 1/2 then f
  else if 1/2 < r then f + 1
  else if f % 2 = 0 then f else f + 1

/-- Python's `round(x, n)` on the exact value of `x`. -/
def pyRound (x : ℚ) (n : Nat) : ℚ :=
  (roundHalfEven (x * 10 ^ n) : ℚ) / 10 ^ n

/-- One transaction parsed from a Vendas por Bico report
(`parse_vendas_por_bico`, `backend/parsers/parse_combined_sales.py:222-233`);
`product_code` is `get_canonical_code(...)`, which can be `None`. -/
structure VTxn where
  company_id : Nat
  pump_number : Option String
  product_name : Option String
  product_code : Option String
  sale_date : String
  client : Option String
  volume : ℚ
  value : ℚ
  payment_method : Option String
  station_name : Option String
deriving DecidableEq, Repr

/-- One transaction parsed from a Cupons por Período report
(`parse_cupons_por_periodo`, `backend/parsers/parse_combined_sales.py:295-310`);
`source_product_code` is the `ref` key of `FUEL_CODES`, always a string. -/
structure CTxn where
  company_id : Nat
  cupom_number : Option String
  sale_date : String
  sale_time : Option String
  client : Option String
  employee : Option String
  source_product_code : String
  product_code : String
  product_name : Option String
  volume : ℚ
  unit_price : ℚ
  value : ℚ
  payment_method : Option String
  station_name : Option String
deriving DecidableEq, Repr

/-- The matching key tuple of `create_match_key`
(`backend/parsers/parse_combined_sales.py:155-168`):
`(str(sale_date), product_code, round(volume, 3), round(value, 2))`. -/
abbrev MatchKey := String × Option String × ℚ × ℚ

/-- Embedded from `create_match_key`
(`backend/parsers/parse_combined_sales.py:155-168`); the `client`
parameter is accepted but not used in the key, exactly as in the source.
A cupom transaction's (plain string) product code enters as `some`. -/
def create_match_key (sale_date : String) (product_code : Option String)
    (volume value : ℚ) (_client : Option String) : MatchKey :=
  (sale_date, product_code, pyRound volume 3, pyRound value 2)

/-- The `defaultdict(list)` built by `combine_reports`
(`cupons_lookup`), as an association list in insertion order. -/
abbrev CuponsLookup := List (MatchKey × List CTxn)

/-- `cupons_lookup.get(key, [])`. -/
def lookupGet (l : CuponsLookup) (k : MatchKey) : List CTxn :=
  (((l.find? (fun kv => kv.1 = k)).map Prod.snd)).getD []

/-- `cupons_lookup[key].append(txn)` (creating the entry when absent,
as `defaultdict(list)` does on indexing). -/
def lookupAppend (l : CuponsLookup) (k : MatchKey) (t : CTxn) : CuponsLookup :=
  match l with
  | [] => [(k, [t])]
  | (k2, ts) :: rest =>
    if k2 = k then (k2, ts ++ [t]) :: rest else (k2, ts) :: lookupAppend rest k t

/-- `cupons_matches.pop(0)` — the fetched list object lives in the dict,
so popping its head mutates the lookup. -/
def lookupPop (l : CuponsLookup) (k : MatchKey) : CuponsLookup :=
  match l with
  | [] => []
  | (k2, ts) :: rest =>
    if k2 = k then (k2, ts.tail) :: rest else (k2, ts) :: lookupPop rest k

/-- Total number of cupom transactions held in the lookup. -/
def lookupSize (l : CuponsLookup) : Nat :=
  (l.map (fun kv => kv.2.length)).sum

/-- Embedded from `combine_reports`
(`backend/parsers/parse_combined_sales.py:326-335`): build the cupons
lookup keyed by `create_match_key`. -/
def buildCuponsLookup (cupons_data : List CTxn) : CuponsLookup :=
  cupons_data.foldl
    (fun acc txn =>
      lookupAppend acc
        (create_match_key txn.sale_date (some txn.product_code)
          txn.volume txn.value txn.client) txn)
    []

/-- One combined record emitted by `combine_reports`
(`backend/parsers/parse_combined_sales.py:359-404`); in unmatched
records the cupom-derived fields are `None`. -/
structure CombinedTxn where
  company_id : Nat
  pump_number : Option String
  product_code : Option String
  product_name : Option String
  sale_date : String
  client : Option String
  volume : ℚ
  value : ℚ
  payment_method : Option String
  station_name : Option String
  cupom_number : Option String
  sale_time : Option String
  employee : Option String
  unit_price : ℚ
  source_product_code : Option String
deriving DecidableEq, Repr

/-- A matched combined record
(`backend/parsers/parse_combined_sales.py:359-377`). -/
def matchedRecord (txn : VTxn) (cupom_txn : CTxn) : CombinedTxn :=
  { company_id := txn.company_id, pump_number := txn.pump_number,
    product_code := txn.product_code, product_name := txn.product_name,
    sale_date := txn.sale_date, client := txn.client, volume := txn.volume,
    value := txn.value, payment_method := txn.payment_method,
    station_name := txn.station_name,
    cupom_number := cupom_txn.cupom_number, sale_time := cupom_txn.sale_time,
    employee := cupom_txn.employee, unit_price := cupom_txn.unit_price,
    source_product_code := some cupom_txn.source_product_code }

/-- An unmatched combined record
(`backend/parsers/parse_combined_sales.py:388-404`): cupom fields `None`,
`unit_price` derived as `value / volume if volume > 0 else 0`. -/
def unmatchedRecord (txn : VTxn) : CombinedTxn :=
  { company_id := txn.company_id, pump_number := txn.pump_number,
    product_code := txn.product_code, product_name := txn.product_name,
    sale_date := txn.sale_date, client := txn.client, volume := txn.volume,
    value := txn.value, payment_method := txn.payment_method,
    station_name := txn.station_name,
    cupom_number := none, sale_time := none, employee := none,
    unit_price := if 0 < txn.volume then txn.value / txn.volume else 0,
    source_product_code := none }

/-- One entry of `unmatched_transactions`
(`backend/parsers/parse_combined_sales.py:381-387`). -/
structure UnmatchedInfo where
  sale_date : String
  product : Option String
  volume : ℚ
  value : ℚ
  client : Option String
deriving DecidableEq, Repr

/-- The debug entry recorded for an unmatched transaction. -/
def unmatchedInfo (txn : VTxn) : UnmatchedInfo :=
  { sale_date := txn.sale_date, product := txn.product_name,
    volume := txn.volume, value := txn.value, client := txn.client }

/-- Embedded from the matching loop of `combine_reports`
(`backend/parsers/parse_combined_sales.py:343-404`), threading the
lookup state and returning
(combined, matched, unmatched, unmatched_transactions, final lookup). -/
def combineGo (lookup : CuponsLookup) :
    List VTxn → List CombinedTxn × Nat × Nat × List UnmatchedInfo × CuponsLookup
  | [] => ([], 0, 0, [], lookup)
  | txn :: rest =>
    let key := create_match_key txn.sale_date txn.product_code
      txn.volume txn.value txn.client
    match lookupGet lookup key with
    | cupom_txn :: _ =>
      let (cs, m, u, un, l2) := combineGo (lookupPop lookup key) rest
      (matchedRecord txn cupom_txn :: cs, m + 1, u, un, l2)
    | [] =>
      let (cs, m, u, un, l2) := combineGo lookup rest
      (unmatchedRecord txn :: cs, m, u + 1, unmatchedInfo txn :: un, l2)

/-- The `match_stats` dict of `combine_reports`
(`backend/parsers/parse_combined_sales.py:420-427`). -/
structure MatchStats where
  matched : Nat
  unmatched : Nat
  total : Nat
  match_rate : ℚ
  is_perfect_match : Bool
  unmatched_transactions : List UnmatchedInfo
deriving DecidableEq, Repr

/-- Embedded from `combine_reports`
(`backend/parsers/parse_combined_sales.py:316-429`): returns the pair
`(combined_transactions, match_stats)`. -/
def combine_reports (vendas_bico_data : List VTxn) (cupons_data : List CTxn) :
    List CombinedTxn × MatchStats :=
  let lookup := buildCuponsLookup cupons_data
  let (combined, matched, unmatched, untx, _) := combineGo lookup vendas_bico_data
  let total := combined.length
  let match_rate : ℚ :=
    if 0 < total then (matched : ℚ) / (total : ℚ) * 100 else 0
  (combined,
   { matched := matched, unmatched := unmatched, total := total,
     match_rate := match_rate, is_perfect_match := unmatched = 0,
     unmatched_transactions := untx })

/-- A dynamically-typed Python value, as far as the import driver's loop
needs: the loop in `import_combined_sales` receives whatever
`process_month` passes it, so the embedding must keep Python's runtime
typing explicit. -/
inductive PyVal where
  | vNone
  | vStr (s : String)
  | vNum (q : ℚ)
  | vBool (b : Bool)
  | vList (xs : List PyVal)
  | vDict (kvs : List (String × PyVal))
  | vTuple (xs : List PyVal)

/-- Python `obj.get(key, default)`: defined on dicts, an `AttributeError`
on any other receiver (in particular on a list or a tuple). -/
def pyGet : PyVal → String → PyVal → Except PyErr PyVal
  | .vDict kvs, k, dflt =>
    .ok ((((kvs.find? (fun kv => kv.1 == k))).map Prod.snd).getD dflt)
  | _, _, _ => .error .attributeError

/-- Python `float(x)` restricted to the values the import loop feeds it
(numbers and booleans; other receivers raise). -/
def pyFloat : PyVal → Except PyErr ℚ
  | .vNum q => .ok q
  | .vBool b => .ok (if b then 1 else 0)
  | _ => .error .typeError

/-- Python `str(x)` — rendering approximated; no claim depends on the
exact text. -/
def pyStrOf : PyVal → String
  | .vNone => "None"
  | .vStr s => s
  | .vNum q => toString q
  | .vBool b => if b then "True" else "False"
  | _ => "object"

/-- Python truthiness of the values appearing in import records. -/
def pyTruthy : PyVal → Bool
  | .vNone => false
  | .vStr s => !(s == "")
  | .vNum q => !(q == 0)
  | .vBool b => b
  | .vList xs => !xs.isEmpty
  | .vDict kvs => !kvs.isEmpty
  | .vTuple xs => !xs.isEmpty

/-- Embedded from `format_time`
(`backend/batch_import_combined_sales.py:33-43`): `None` stays `None`,
strings pass through, anything else (no `time`/`datetime` objects occur
among `PyVal`s) becomes `None`. -/
def format_time : PyVal → PyVal
  | .vNone => .vNone
  | .vStr s => .vStr s
  | _ => .vNone

/-- Shallow equality on the scalar Python values that occur in dedup
keys. -/
def pyKeyEq : PyVal → PyVal → Bool
  | .vNone, .vNone => true
  | .vStr a, .vStr b => a == b
  | .vNum a, .vNum b => a == b
  | .vBool a, .vBool b => a == b
  | _, _ => false

/-- Componentwise equality of dedup keys. -/
def keyListEq (a b : List PyVal) : Bool :=
  a.length == b.length && (a.zip b).all (fun p => pyKeyEq p.1 p.2)

/-- Embedded from `import_combined_sales`
(`backend/batch_import_combined_sales.py:64-73`): the dedup key built in
the loop body — its first fallible step is `txn.get('sale_date')`. -/
def import_txn_key (company_id : Nat) (txn : PyVal) :
    Except PyErr (List PyVal) := do
  let sd ← pyGet txn "sale_date" .vNone
  let pn ← pyGet txn "pump_number" .vNone
  let pc ← pyGet txn "product_code" .vNone
  let vol ← pyGet txn "volume" (.vNum 0)
  let volf ← pyFloat vol
  let val ← pyGet txn "value" (.vNum 0)
  let valf ← pyFloat val
  let cn ← pyGet txn "cupom_number" .vNone
  let st ← pyGet txn "sale_time" .vNone
  pure [.vNum (company_id : ℚ), .vStr (pyStrOf sd), pn, pc,
        .vNum (pyRound volf 3), .vNum (pyRound valf 2), cn, format_time st]

/-- One record prepared for insertion
(`backend/batch_import_combined_sales.py:80-94`). -/
structure ImportRecord where
  company_id : Nat
  pump_number : PyVal
  product_code : PyVal
  product_name : PyVal
  sale_date : String
  client : PyVal
  volume : ℚ
  value : ℚ
  payment_method : PyVal
  cupom_number : PyVal
  sale_time : PyVal
  employee : PyVal
  unit_price : Option ℚ

/-- Embedded from `import_combined_sales`
(`backend/batch_import_combined_sales.py:80-94`): the record dict built
for one transaction. -/
def import_txn_record (company_id : Nat) (txn : PyVal) :
    Except PyErr ImportRecord := do
  let pn ← pyGet txn "pump_number" .vNone
  let pc ← pyGet txn "product_code" .vNone
  let pname ← pyGet txn "product_name" .vNone
  let sd ← pyGet txn "sale_date" .vNone
  let cl ← pyGet txn "client" .vNone
  let vol ← pyGet txn "volume" (.vNum 0)
  let volf ← pyFloat vol
  let val ← pyGet txn "value" (.vNum 0)
  let valf ← pyFloat val
  let pm ← pyGet txn "payment_method" .vNone
  let cn ← pyGet txn "cupom_number" .vNone
  let st ← pyGet txn "sale_time" .vNone
  let emp ← pyGet txn "employee" .vNone
  let upflag ← pyGet txn "unit_price" .vNone
  if pyTruthy upflag then
    let up ← pyGet txn "unit_price" (.vNum 0)
    let upf ← pyFloat up
    pure { company_id := company_id, pump_number := pn, product_code := pc,
           product_name := pname, sale_date := pyStrOf sd, client := cl,
           volume := volf, value := valf, payment_method := pm,
           cupom_number := cn, sale_time := format_time st, employee := emp,
           unit_price := some upf }
  else
    pure { company_id := company_id, pump_number := pn, product_code := pc,
           product_name := pname, sale_date := pyStrOf sd, client := cl,
           volume := volf, value := valf, payment_method := pm,
           cupom_number := cn, sale_time := format_time st, employee := emp,
           unit_price := none }

/-- Embedded from the record-preparation loop of `import_combined_sales`
(`backend/batch_import_combined_sales.py:58-95`): iterate the
transactions, skip duplicates by key, collect records; the first raised
exception propagates out of the function (the loop body is not inside a
`try`). -/
def prepare_records (company_id : Nat) (seen : List (List PyVal)) :
    List PyVal → Except PyErr (List ImportRecord × Nat)
  | [] => .ok ([], 0)
  | txn :: rest => do
    let key ← import_txn_key company_id txn
    if seen.any (keyListEq key) then
      let (rs, d) ← prepare_records company_id seen rest
      pure (rs, d + 1)
    else
      let record ← import_txn_record company_id txn
      let (rs, d) ← prepare_records company_id (key :: seen) rest
      pure (record :: rs, d)

/-- Python iteration over the value handed to the `for txn in
combined_data` loop: lists and tuples yield their elements, dicts their
keys, everything else raises. -/
def pyIter : PyVal → Except PyErr (List PyVal)
  | .vList xs => .ok xs
  | .vTuple xs => .ok xs
  | .vDict kvs => .ok (kvs.map (fun kv => .vStr kv.1))
  | _ => .error .typeError

/-- Embedded from `import_combined_sales`
(`backend/batch_import_combined_sales.py:46-99`): the record-preparation
phase (the subsequent batched upserts are external I/O and are decided
after this phase; an exception here reaches the caller before any insert
is attempted). -/
def import_combined_sales (combined_data : PyVal) (company_id : Nat) :
    Except PyErr (List ImportRecord × Nat) := do
  let txns ← pyIter combined_data
  prepare_records company_id [] txns

/-- The Python value of an optional string. -/
def optStrToPy : Option String → PyVal
  | none => .vNone
  | some s => .vStr s

/-- The Python dict of one combined transaction as built by
`combine_reports`. -/
def combinedTxnToPy (c : CombinedTxn) : PyVal :=
  .vDict [("company_id", .vNum (c.company_id : ℚ)),
          ("pump_number", optStrToPy c.pump_number),
          ("product_code", optStrToPy c.product_code),
          ("product_name", optStrToPy c.product_name),
          ("sale_date", .vStr c.sale_date),
          ("client", optStrToPy c.client),
          ("volume", .vNum c.volume),
          ("value", .vNum c.value),
          ("payment_method", optStrToPy c.payment_method),
          ("station_name", optStrToPy c.station_name),
          ("cupom_number", optStrToPy c.cupom_number),
          ("sale_time", optStrToPy c.sale_time),
          ("employee", optStrToPy c.employee),
          ("unit_price", .vNum c.unit_price),
          ("source_product_code", optStrToPy c.source_product_code)]

/-- The Python dict of one unmatched-transaction debug entry. -/
def unmatchedInfoToPy (u : UnmatchedInfo) : PyVal :=
  .vDict [("sale_date", .vStr u.sale_date),
          ("product", optStrToPy u.product),
          ("volume", .vNum u.volume),
          ("value", .vNum u.value),
          ("client", optStrToPy u.client)]

/-- The Python dict of the match-stats record. -/
def matchStatsToPy (s : MatchStats) : PyVal :=
  .vDict [("matched", .vNum (s.matched : ℚ)),
          ("unmatched", .vNum (s.unmatched : ℚ)),
          ("total", .vNum (s.total : ℚ)),
          ("match_rate", .vNum s.match_rate),
          ("is_perfect_match", .vBool s.is_perfect_match),
          ("unmatched_transactions", .vList (s.unmatched_transactions.map unmatchedInfoToPy))]

/-- Embedded from `process_month`
(`backend/batch_import_combined_sales.py:142-168`), success path: both
reports parsed, `combined = combine_reports(vendas_data, cupons_data)` —
the 2-tuple — is passed unchanged to `import_combined_sales`. -/
def process_month (vendas_data : List VTxn) (cupons_data : List CTxn)
    (company_id : Nat) : Except PyErr (List ImportRecord × Nat) :=
  let combined := combine_reports vendas_data cupons_data
  import_combined_sales
    (.vTuple [.vList (combined.1.map combinedTxnToPy), matchStatsToPy combined.2])
    company_id

/-- A stub engine for exercising the report loop concretely: the COGS
calculation raises on sale id 1 and succeeds elsewhere. -/
def cogsStub (s : SaleRow) : Except PyErr CogsResult :=
  if s.id = 1 then .error .typeError else .ok { total_cogs := 2 * s.volume_sold }

/-- A concrete sale whose COGS calculation fails under `cogsStub`. -/
def saleFailing : SaleRow :=
  { id := 1, sale_date := "2024-01-10", product_code := "GC",
    product_name := "GASOLINA COMUM", volume_sold := 10,
    sale_price_per_liter := 6, total_revenue := 60 }

/-- A concrete sale whose COGS calculation succeeds under `cogsStub`. -/
def saleOk : SaleRow :=
  { id := 2, sale_date := "2024-01-11", product_code := "GC",
    product_name := "GASOLINA COMUM", volume_sold := 5,
    sale_price_per_liter := 6, total_revenue := 30 }

end FuelBI

namespace FuelBI

/-- The allocation loop allocates nothing when the requested volume is
zero. -/
theorem allocateGo_zero (bs : List Batch) : allocateGo 0 bs = [] := by
  cases bs <;> simp [allocateGo]

/-- A batch sequence with nonnegative remaining volumes has a nonnegative
total. -/
theorem sumRemainingAll_nonneg (bs : List Batch)
    (h : ∀ b ∈ bs, 0 ≤ b.remaining_volume) : 0 ≤ sumRemainingAll bs := by
  refine List.sum_nonneg ?_
  intro x hx
  rcases List.mem_map.1 hx with ⟨b, hb, rfl⟩
  exact h b hb

/-- Volume sum of line items distributes over cons. -/
theorem itemsVolume_cons (it : LineItem) (items : List LineItem) :
    itemsVolume (it :: items) = it.volume + itemsVolume items := by
  simp [itemsVolume]

/-- The allocation loop allocates exactly the minimum of the requested
volume and the volume actually available in the sequence. -/
theorem itemsVolume_allocateGo (bs : List Batch) :
    ∀ need : ℚ, 0 ≤ need → (∀ b ∈ bs, 0 ≤ b.remaining_volume) →
      itemsVolume (allocateGo need bs) = min need (sumRemainingAll bs) := by
  induction bs with
  | nil =>
    intro need hneed _
    simp [allocateGo, itemsVolume, sumRemainingAll, min_eq_right hneed]
  | cons b rest ih =>
    intro need hneed hnn
    by_cases h0 : need = 0
    · subst h0
      have : (0:ℚ) ≤ sumRemainingAll (b :: rest) :=
        sumRemainingAll_nonneg _ hnn
      simp [allocateGo, itemsVolume, min_eq_left this]
    · have hbrem : 0 ≤ b.remaining_volume := hnn b (List.mem_cons_self _ _)
      have hrest : ∀ x ∈ rest, 0 ≤ x.remaining_volume :=
        fun x hx => hnn x (List.mem_cons_of_mem _ hx)
      have htake_le : min b.remaining_volume need ≤ need := min_le_right _ _
      have hneed2 : 0 ≤ need - min b.remaining_volume need := by linarith
      have hS : 0 ≤ sumRemainingAll rest := sumRemainingAll_nonneg _ hrest
      rw [allocateGo, if_neg h0]
      rw [itemsVolume_cons, ih _ hneed2 hrest]
      have hsum : sumRemainingAll (b :: rest) =
          b.remaining_volume + sumRemainingAll rest := by
        simp [sumRemainingAll]
      rw [hsum]
      rcases le_total b.remaining_volume need with hc | hc
      · rw [min_eq_left hc]
        have : min need (b.remaining_volume + sumRemainingAll rest) =
            min (b.remaining_volume + (need - b.remaining_volume))
              (b.remaining_volume + sumRemainingAll rest) := by ring_nf
        rw [this, min_add_add_left]
      · rw [min_eq_right hc]
        have h1 : min (need - need) (sumRemainingAll rest) = 0 := by
          simp [min_eq_left hS]
        rw [h1]
        have h2 : need ≤ b.remaining_volume + sumRemainingAll rest := by linarith
        rw [min_eq_left h2]
        ring

/-- Every line item produced by the allocation loop stems from a batch of
the input sequence: it carries that batch's id, its cost is its volume
times that batch's own unit cost, and its volume does not exceed that
batch's remaining volume. -/
theorem allocateGo_item_provenance (bs : List Batch) :
    ∀ (need : ℚ), ∀ it ∈ allocateGo need bs,
      ∃ b ∈ bs, it.batch_id = b.batch_id ∧ it.cost = it.volume * b.unit_cost ∧
        it.volume ≤ b.remaining_volume := by
  induction bs with
  | nil => intro need it hit; simp [allocateGo] at hit
  | cons b rest ih =>
    intro need it hit
    rw [allocateGo] at hit
    by_cases h0 : need = 0
    · simp [h0] at hit
    · rw [if_neg h0] at hit
      rcases List.mem_cons.1 hit with hhead | htail
      · subst hhead
        exact ⟨b, List.mem_cons_self _ _, rfl, rfl, min_le_left _ _⟩
      · rcases ih _ it htail with ⟨b2, hb2, h1, h2, h3⟩
        exact ⟨b2, List.mem_cons_of_mem _ hb2, h1, h2, h3⟩

/-- Unfolding of `Except.map` hitting `ok`. -/
theorem exceptMap_eq_ok {α β ε : Type} (f : α → β) (x : Except ε α) (y : β)
    (h : x.map f = .ok y) : ∃ a, x = .ok a ∧ y = f a := by
  cases x with
  | error e => simp [Except.map] at h
  | ok a => exact ⟨a, rfl, by simpa [Except.map] using h.symm⟩

/-- The eligibility test spelt out. -/
theorem batchEligible_iff (p : String) (c : Option Nat) (b : Batch) :
    batchEligible p c b = true ↔
      b.product_code = p ∧ b.status = BatchStatus.active ∧
        (∀ cd, c = some cd → cd ≤ b.acquisition_date) := by
  cases c <;> simp [batchEligible, and_assoc]

/-- Membership in the eligible sequence means membership in the ledger
plus eligibility. -/
theorem mem_eligible_batches {ledger : List Batch} {p : String}
    {c : Option Nat} {b : Batch} :
    b ∈ eligible_batches ledger p c ↔ b ∈ ledger ∧ batchEligible p c b = true := by
  unfold eligible_batches
  rw [List.mem_insertionSort, List.mem_filter]

end FuelBI

namespace FuelBI

/-- `apply_consumption` preserves the acquired-volume totals of every
product (it only touches `remaining_volume` and `status`). -/
theorem apply_consumption_sumAcquired (ledger : List Batch) (bid : Nat) (vol : ℚ) :
    ∀ l2, apply_consumption ledger bid vol = .ok l2 →
      ∀ p, sumAcquired p l2 = sumAcquired p ledger := by
  induction ledger with
  | nil => intro l2 h; simp [apply_consumption] at h
  | cons b rest ih =>
    intro l2 h p
    rw [apply_consumption] at h
    by_cases hb : b.batch_id = bid
    · rw [if_pos hb] at h
      by_cases hover : b.remaining_volume < vol
      · simp [if_pos hover] at h
      · rw [if_neg hover] at h
        cases h
        simp [sumAcquired]
    · rw [if_neg hb] at h
      rcases exceptMap_eq_ok _ _ _ h with ⟨restl2, hrest, rfl⟩
      simp [sumAcquired] at *
      rw [ih restl2 hrest p]

/-- `apply_consumption` preserves the list of batch ids. -/
theorem apply_consumption_ids (ledger : List Batch) (bid : Nat) (vol : ℚ) :
    ∀ l2, apply_consumption ledger bid vol = .ok l2 →
      l2.map Batch.batch_id = ledger.map Batch.batch_id := by
  induction ledger with
  | nil => intro l2 h; simp [apply_consumption] at h
  | cons b rest ih =>
    intro l2 h
    rw [apply_consumption] at h
    by_cases hb : b.batch_id = bid
    · rw [if_pos hb] at h
      by_cases hover : b.remaining_volume < vol
      · simp [if_pos hover] at h
      · rw [if_neg hover] at h
        cases h
        simp
    · rw [if_neg hb] at h
      rcases exceptMap_eq_ok _ _ _ h with ⟨restl2, hrest, rfl⟩
      simp [ih restl2 hrest]

/-- `apply_consumption` preserves the product code found for any id. -/
theorem apply_consumption_firstProd (ledger : List Batch) (bid : Nat) (vol : ℚ) :
    ∀ l2, apply_consumption ledger bid vol = .ok l2 →
      ∀ bid2, firstProd l2 bid2 = firstProd ledger bid2 := by
  induction ledger with
  | nil => intro l2 h; simp [apply_consumption] at h
  | cons b rest ih =>
    intro l2 h bid2
    rw [apply_consumption] at h
    by_cases hb : b.batch_id = bid
    · rw [if_pos hb] at h
      by_cases hover : b.remaining_volume < vol
      · simp [if_pos hover] at h
      · rw [if_neg hover] at h
        cases h
        by_cases h2 : b.batch_id = bid2 <;>
          simp [firstProd, List.find?, h2]
    · rw [if_neg hb] at h
      rcases exceptMap_eq_ok _ _ _ h with ⟨restl2, hrest, rfl⟩
      by_cases h2 : b.batch_id = bid2
      · simp [firstProd, List.find?, h2]
      · have := ih restl2 hrest bid2
        simp only [firstProd, List.find?, decide_eq_false h2] at *
        exact this

/-- A successful `apply_consumption` decrements the remaining-volume total
of exactly the product owning the first batch with the consumed id. -/
theorem apply_consumption_sumRemaining (ledger : List Batch) (bid : Nat) (vol : ℚ) :
    ∀ l2, apply_consumption ledger bid vol = .ok l2 →
      ∀ p, sumRemaining p l2 =
        sumRemaining p ledger - (if firstProd ledger bid = some p then vol else 0) := by
  induction ledger with
  | nil => intro l2 h; simp [apply_consumption] at h
  | cons b rest ih =>
    intro l2 h p
    rw [apply_consumption] at h
    by_cases hb : b.batch_id = bid
    · rw [if_pos hb] at h
      by_cases hover : b.remaining_volume < vol
      · simp [if_pos hover] at h
      · rw [if_neg hover] at h
        cases h
        have hfind : firstProd (b :: rest) bid = some b.product_code := by
          simp [firstProd, List.find?, hb]
        rw [hfind]
        by_cases hp : b.product_code = p
        · simp [sumRemaining, hp]
          ring
        · simp [sumRemaining, hp]
    · rw [if_neg hb] at h
      rcases exceptMap_eq_ok _ _ _ h with ⟨restl2, hrest, rfl⟩
      have hfind : firstProd (b :: rest) bid = firstProd rest bid := by
        simp [firstProd, List.find?, hb]
      rw [hfind]
      have := ih restl2 hrest p
      have hcons : ∀ q l, sumRemaining q (b :: l) =
          (if b.product_code = q then b.remaining_volume else 0) + sumRemaining q l := by
        intro q l; simp [sumRemaining]
      rw [hcons, hcons, this]
      ring

end FuelBI

namespace FuelBI

/-- Applying a list of line items all of whose ids resolve to product `p`
decrements exactly `p`'s remaining total by the items' volume sum, leaves
every other product's remaining total and all acquired totals unchanged,
and preserves ids and id-to-product resolution. -/
theorem applyItems_sums (items : List LineItem) :
    ∀ (ledger l2 : List Batch) (p : String),
      applyItems ledger items = .ok l2 →
      (∀ it ∈ items, firstProd ledger it.batch_id = some p) →
      (∀ q, sumRemaining q l2 =
          sumRemaining q ledger - (if p = q then itemsVolume items else 0)) ∧
      (∀ q, sumAcquired q l2 = sumAcquired q ledger) ∧
      (∀ bid, firstProd l2 bid = firstProd ledger bid) ∧
      l2.map Batch.batch_id = ledger.map Batch.batch_id := by
  induction items with
  | nil =>
    intro ledger l2 p h _
    simp [applyItems] at h
    subst h
    refine ⟨fun q => ?_, fun q => rfl, fun bid => rfl, rfl⟩
    simp [itemsVolume]
  | cons it rest ih =>
    intro ledger l2 p h hprod
    rw [applyItems] at h
    cases happly : apply_consumption ledger it.batch_id it.volume with
    | error e => rw [happly] at h; simp [Bind.bind, Except.bind] at h
    | ok ledger2 =>
      rw [happly] at h
      simp only [Bind.bind, Except.bind] at h
      have hfp := apply_consumption_firstProd ledger it.batch_id it.volume ledger2 happly
      have hprod2 : ∀ x ∈ rest, firstProd ledger2 x.batch_id = some p := by
        intro x hx
        rw [hfp]
        exact hprod x (List.mem_cons_of_mem _ hx)
      rcases ih ledger2 l2 p h hprod2 with ⟨hrem, hacq, hfp2, hids⟩
      have hstep := apply_consumption_sumRemaining ledger it.batch_id it.volume ledger2 happly
      have hit : firstProd ledger it.batch_id = some p :=
        hprod it (List.mem_cons_self _ _)
      refine ⟨fun q => ?_, fun q => ?_, fun bid => ?_, ?_⟩
      · rw [hrem q, hstep q, hit, itemsVolume_cons]
        by_cases hpq : p = q
        · simp [hpq]; ring
        · have : ¬ (some p = some q) := by simpa using hpq
          simp [hpq, this]
      · rw [hacq q, apply_consumption_sumAcquired ledger it.batch_id it.volume ledger2 happly q]
      · rw [hfp2 bid, hfp bid]
      · rw [hids, apply_consumption_ids ledger it.batch_id it.volume ledger2 happly]

/-- In a ledger with distinct batch ids, looking a batch's own id up finds
that batch's product. -/
theorem firstProd_of_mem (ledger : List Batch)
    (hnd : (ledger.map Batch.batch_id).Nodup) {b : Batch} (hb : b ∈ ledger) :
    firstProd ledger b.batch_id = some b.product_code := by
  induction ledger with
  | nil => simp at hb
  | cons hd tl ih =>
    rcases List.mem_cons.1 hb with rfl | htl
    · simp [firstProd, List.find?]
    · have hnd2 : (tl.map Batch.batch_id).Nodup := (List.nodup_cons.1 hnd).2
      have hne : hd.batch_id ≠ b.batch_id := by
        intro he
        exact (List.nodup_cons.1 hnd).1 (he ▸ List.mem_map_of_mem Batch.batch_id htl)
      have := ih hnd2 htl
      simp only [firstProd, List.find?, decide_eq_false hne] at *
      exact this

/-- Every line item of an allocation over the eligible batches of product
`p` resolves, in a ledger with distinct batch ids, to a batch of product
`p`. -/
theorem allocate_item_firstProd (ledger : List Batch) (p : String)
    (c : Option Nat) (req : ℚ)
    (hnd : (ledger.map Batch.batch_id).Nodup) :
    ∀ it ∈ (allocate req (eligible_batches ledger p c)).line_items,
      firstProd ledger it.batch_id = some p := by
  intro it hit
  rcases allocateGo_item_provenance _ _ it hit with ⟨b, hb, hid, _, _⟩
  rcases mem_eligible_batches.1 hb with ⟨hmem, helig⟩
  rcases (batchEligible_iff p c b).1 helig with ⟨hprod, _, _⟩
  rw [hid, firstProd_of_mem ledger hnd hmem, hprod]

end FuelBI

namespace FuelBI

/-- A successful commit for product `p` decrements exactly `p`'s remaining
total by the committed line-item volume, preserves all acquired totals,
id-to-product resolution and the id list. -/
theorem commit_sums (ledger : List Batch) (p : String) (c : Option Nat)
    (req : ℚ) (res : AllocationResult) (l2 : List Batch)
    (hnd : (ledger.map Batch.batch_id).Nodup)
    (h : commit ledger p c req = .ok (res, l2)) :
    (∀ q, sumRemaining q l2 =
        sumRemaining q ledger - (if p = q then itemsVolume res.line_items else 0)) ∧
    (∀ q, sumAcquired q l2 = sumAcquired q ledger) ∧
    (∀ bid, firstProd l2 bid = firstProd ledger bid) ∧
    l2.map Batch.batch_id = ledger.map Batch.batch_id := by
  unfold commit at h
  by_cases hneg : req < 0
  · simp [if_pos hneg] at h
  · rw [if_neg hneg] at h
    rcases exceptMap_eq_ok _ _ _ h with ⟨l3, happly, heq⟩
    have hres : res = allocate req (eligible_batches ledger p c) := by
      have := congrArg Prod.fst heq; simpa using this
    have hl2 : l2 = l3 := by
      have := congrArg Prod.snd heq; simpa using this
    subst hl2
    have hitems : ∀ it ∈ res.line_items, firstProd ledger it.batch_id = some p := by
      rw [hres]
      exact allocate_item_firstProd ledger p c req hnd
    rw [hres]
    rw [hres] at hitems
    exact applyItems_sums _ ledger l2 p happly hitems

/-- A successful sequence of commits decrements each product's remaining
total by exactly that product's committed line-item volumes, preserves all
acquired totals, and preserves the id list. -/
theorem commitMany_sums (reqs : List (String × ℚ)) :
    ∀ (c : Option Nat) (ledger : List Batch)
      (results : List (String × AllocationResult)) (final : List Batch),
      (ledger.map Batch.batch_id).Nodup →
      commitMany c ledger reqs = .ok (results, final) →
      (∀ q, sumRemaining q final = sumRemaining q ledger - committedVolume q results) ∧
      (∀ q, sumAcquired q final = sumAcquired q ledger) ∧
      final.map Batch.batch_id = ledger.map Batch.batch_id := by
  induction reqs with
  | nil =>
    intro c ledger results final hnd h
    simp [commitMany] at h
    rcases h with ⟨rfl, rfl⟩
    exact ⟨fun q => by simp [committedVolume], fun q => rfl, rfl⟩
  | cons pv rest ih =>
    intro c ledger results final hnd h
    rcases pv with ⟨p, v⟩
    rw [commitMany] at h
    cases hc : commit ledger p c v with
    | error e => rw [hc] at h; simp [Bind.bind, Except.bind] at h
    | ok resl =>
      rcases resl with ⟨res, ledger2⟩
      rw [hc] at h
      simp only [Bind.bind, Except.bind] at h
      cases hrest : commitMany c ledger2 rest with
      | error e => rw [hrest] at h; simp at h
      | ok rl =>
        rcases rl with ⟨results2, final2⟩
        rw [hrest] at h
        simp only [Except.ok.injEq, Prod.mk.injEq] at h
        rcases h with ⟨hres, hfin⟩
        subst hfin
        rcases commit_sums ledger p c v res ledger2 hnd hc with ⟨h1, h2, _, h4⟩
        have hnd2 : (ledger2.map Batch.batch_id).Nodup := by rw [h4]; exact hnd
        rcases ih c ledger2 results2 final2 hnd2 hrest with ⟨g1, g2, g3⟩
        refine ⟨fun q => ?_, fun q => ?_, ?_⟩
        · rw [g1 q, h1 q, ← hres]
          have : committedVolume q ((p, res) :: results2) =
              (if p = q then itemsVolume res.line_items else 0) +
                committedVolume q results2 := by
            by_cases hpq : p = q <;> simp [committedVolume, hpq]
          rw [this]
          ring
        · rw [g2 q, h2 q]
        · rw [g3, h4]

end FuelBI

namespace FuelBI

/-- C1: `allocate` walks the eligible batches oldest-first (the eligible
sequence is sorted ascending by acquisition date with ties broken by batch
id), takes `take = min(remaining_volume, volume_still_needed)` from each,
appends the line item `(batch_id, take, take × unit_cost)`, reduces the
outstanding volume by `take`, and stops when the outstanding volume
reaches 0 or the sequence is exhausted; on the scenario-A ledger
(batch1: Jan 1, 100 units at 2.00; batch2: Jan 5, 50 units at 2.50) a
request of 120 yields 100 from batch1 (cost 200.00) plus 20 from batch2
(cost 50.00), total cost 250.00, shortfall 0. -/
theorem claim_C1 :
    (∀ (need : ℚ) (b : Batch) (rest : List Batch), need ≠ 0 →
      allocateGo need (b :: rest) =
        { batch_id := b.batch_id, volume := min b.remaining_volume need,
          cost := min b.remaining_volume need * b.unit_cost } ::
          allocateGo (need - min b.remaining_volume need) rest) ∧
    (∀ bs : List Batch, allocateGo 0 bs = []) ∧
    (∀ need : ℚ, allocateGo need [] = []) ∧
    (∀ (ledger : List Batch) (p : String) (c : Option Nat),
      List.Sorted batchLE (eligible_batches ledger p c)) ∧
    allocate 120 (eligible_batches scenario_ledger "GC" none) =
      { line_items := [{ batch_id := 1, volume := 100, cost := 200 },
                       { batch_id := 2, volume := 20, cost := 50 }],
        total_volume := 120, total_cost := 250, shortfall := 0 } := by
  refine ⟨?_, allocateGo_zero, ?_, ?_, ?_⟩
  · intro need b rest hne
    rw [allocateGo, if_neg hne]
  · intro need
    rw [allocateGo]
  · intro ledger p c
    exact List.sorted_insertionSort batchLE _
  · norm_num [allocate, allocateGo, eligible_batches, batchEligible,
      List.insertionSort, List.orderedInsert, batchLE, itemsVolume, itemsCost,
      batch1, batch2, scenario_ledger, min_def]

/-- C1 witness: the step equation instantiated on batch1 with a request
of 120. -/
theorem claim_C1_witness :
    allocateGo 120 (batch1 :: [batch2]) =
      { batch_id := batch1.batch_id, volume := min batch1.remaining_volume 120,
        cost := min batch1.remaining_volume 120 * batch1.unit_cost } ::
        allocateGo (120 - min batch1.remaining_volume 120) [batch2] :=
  claim_C1.1 120 batch1 [batch2] (by norm_num)

/-- C5: a zero-volume allocation request succeeds trivially with an empty
result — no line items, total volume 0, total cost 0.00, shortfall 0 —
and is not rejected as an InvalidRequest. -/
theorem claim_C5 (ledger : List Batch) (p : String) (c : Option Nat) :
    simulate ledger p c 0 =
      .ok { line_items := [], total_volume := 0, total_cost := 0, shortfall := 0 } := by
  simp [simulate, allocate, allocateGo_zero, itemsVolume, itemsCost]

/-- C4: simulation never mutates the ledger — after any number of
simulate-mode COGS calculations (the mode used by the reporting
endpoints), every batch's state is unchanged. -/
theorem claim_C4 (c : Option Nat) (ledger : List Batch)
    (reqs : List (String × ℚ)) : simulateMany c ledger reqs = ledger := by
  induction reqs generalizing ledger with
  | nil => rfl
  | cons pv rest ih =>
    rcases pv with ⟨p, v⟩
    rw [simulateMany]
    by_cases hv : v < 0
    · simp [calculate_sale_cogs, simulate, hv, Except.map, ih]
    · simp [calculate_sale_cogs, simulate, hv, Except.map, ih]

/-- C6: a batch acquired strictly before the configured cutoff is never
selected by any allocation, even if it is the only batch with remaining
volume; with no cutoff configured every active batch of the product is
eligible. -/
theorem claim_C6 :
    (∀ (ledger : List Batch) (p : String) (c : Nat) (req : ℚ) (bid : Nat),
      (∀ b ∈ ledger, b.batch_id = bid → b.acquisition_date < c) →
      ∀ it ∈ (allocate req (eligible_batches ledger p (some c))).line_items,
        it.batch_id ≠ bid) ∧
    (∀ (ledger : List Batch) (p : String) (b : Batch),
      b ∈ ledger → b.product_code = p → b.status = BatchStatus.active →
      b ∈ eligible_batches ledger p none) := by
  constructor
  · intro ledger p c req bid hbefore it hit heq
    rcases allocateGo_item_provenance _ _ it hit with ⟨b, hb, hid, _, _⟩
    rcases mem_eligible_batches.1 hb with ⟨hmem, helig⟩
    rcases (batchEligible_iff p (some c) b).1 helig with ⟨_, _, hcut⟩
    have hge : c ≤ b.acquisition_date := hcut c rfl
    have hlt : b.acquisition_date < c := hbefore b hmem (by rw [← hid, heq])
    omega
  · intro ledger p b hmem hp hs
    refine mem_eligible_batches.2 ⟨hmem, (batchEligible_iff p none b).2 ⟨hp, hs, ?_⟩⟩
    intro cd hcd
    cases hcd

/-- C6 witness: scenario C — with cutoff Jan 3 (encoded 103), batch1
(acquired Jan 1) is never selected by a request of 30; with no cutoff,
batch2 is eligible. -/
theorem claim_C6_witness :
    (∀ it ∈ (allocate 30 (eligible_batches scenario_ledger "GC" (some 103))).line_items,
      it.batch_id ≠ 1) ∧
    batch2 ∈ eligible_batches scenario_ledger "GC" none := by
  constructor
  · refine claim_C6.1 scenario_ledger "GC" 103 30 1 ?_
    intro b hb
    fin_cases hb <;> simp [batch1, batch2]
  · refine claim_C6.2 scenario_ledger "GC" batch2 ?_ rfl rfl
    simp [scenario_ledger]

end FuelBI

namespace FuelBI

/-- C3: for every ordered batch sequence and nonnegative request, the
allocation's total volume equals `min(requested, volume actually
available)`; its total cost is the sum of the line-item costs, where each
line item's cost is its volume times its own batch's unit cost (no
cross-batch smoothing); the shortfall equals the unmet volume and the
accumulated line items are still returned; on the scenario-B ledger a
request of 200 allocates 150 at total cost 325.00 with shortfall 50. -/
theorem claim_C3 :
    (∀ (req : ℚ) (bs : List Batch), 0 ≤ req →
      (∀ b ∈ bs, 0 ≤ b.remaining_volume) →
      (allocate req bs).total_volume = min req (sumRemainingAll bs) ∧
      (allocate req bs).total_cost = itemsCost (allocate req bs).line_items ∧
      (∀ it ∈ (allocate req bs).line_items,
        ∃ b ∈ bs, it.batch_id = b.batch_id ∧ it.cost = it.volume * b.unit_cost) ∧
      (allocate req bs).shortfall = req - min req (sumRemainingAll bs)) ∧
    allocate 200 (eligible_batches scenario_ledger "GC" none) =
      { line_items := [{ batch_id := 1, volume := 100, cost := 200 },
                       { batch_id := 2, volume := 50, cost := 125 }],
        total_volume := 150, total_cost := 325, shortfall := 50 } := by
  constructor
  · intro req bs hreq hnn
    have hvol := itemsVolume_allocateGo bs req hreq hnn
    refine ⟨hvol, rfl, ?_, ?_⟩
    · intro it hit
      rcases allocateGo_item_provenance bs req it hit with ⟨b, hb, h1, h2, _⟩
      exact ⟨b, hb, h1, h2⟩
    · show req - itemsVolume (allocateGo req bs) = _
      rw [hvol]
  · norm_num [allocate, allocateGo, eligible_batches, batchEligible,
      List.insertionSort, List.orderedInsert, batchLE, itemsVolume, itemsCost,
      batch1, batch2, scenario_ledger, min_def]

/-- C3 witness: the invariant instantiated on the scenario ledger's
batches with a request of 200. -/
theorem claim_C3_witness :
    (allocate 200 [batch1, batch2]).total_volume =
        min 200 (sumRemainingAll [batch1, batch2]) ∧
    (allocate 200 [batch1, batch2]).total_cost =
        itemsCost (allocate 200 [batch1, batch2]).line_items ∧
    (∀ it ∈ (allocate 200 [batch1, batch2]).line_items,
      ∃ b ∈ [batch1, batch2], it.batch_id = b.batch_id ∧
        it.cost = it.volume * b.unit_cost) ∧
    (allocate 200 [batch1, batch2]).shortfall =
        200 - min 200 (sumRemainingAll [batch1, batch2]) := by
  refine claim_C3.1 200 [batch1, batch2] (by norm_num) ?_
  intro b hb
  fin_cases hb <;> norm_num [batch1, batch2]

/-- C2: conservation — starting from a freshly created ledger (every
batch has `remaining_volume = acquired_volume`) with distinct batch ids,
after any finite sequence of successful commits the total acquired volume
minus the total remaining volume of every product equals the sum of the
line-item volumes committed against that product: no unit of volume is
costed twice or lost. -/
theorem claim_C2 (ledger : List Batch) (c : Option Nat)
    (reqs : List (String × ℚ)) (results : List (String × AllocationResult))
    (final : List Batch) (p : String)
    (hnd : (ledger.map Batch.batch_id).Nodup)
    (hfresh : ∀ b ∈ ledger, b.remaining_volume = b.acquired_volume)
    (h : commitMany c ledger reqs = .ok (results, final)) :
    sumAcquired p final - sumRemaining p final = committedVolume p results := by
  rcases commitMany_sums reqs c ledger results final hnd h with ⟨h1, h2, _⟩
  have hinit : sumRemaining p ledger = sumAcquired p ledger := by
    unfold sumRemaining sumAcquired
    congr 1
    apply List.map_congr_left
    intro b hb
    rw [hfresh b hb]
  rw [h1 p, h2 p, hinit]
  ring

/-- C2 witness: committing 30 units of GC against the fresh scenario
ledger leaves acquired-minus-remaining equal to the committed volume. -/
theorem claim_C2_witness :
    sumAcquired "GC" scenario_ledger_after - sumRemaining "GC" scenario_ledger_after =
      committedVolume "GC" scenario_results := by
  refine claim_C2 scenario_ledger none [("GC", 30)] scenario_results
      scenario_ledger_after "GC" ?_ ?_ ?_
  · simp [scenario_ledger, batch1, batch2]
  · intro b hb
    fin_cases hb <;> rfl
  · norm_num [commitMany, commit, allocate, allocateGo, eligible_batches,
      batchEligible, List.insertionSort, List.orderedInsert, batchLE,
      itemsVolume, itemsCost, applyItems, apply_consumption,
      batch1, batch2, scenario_ledger, scenario_ledger_after, scenario_results,
      min_def, Bind.bind, Except.bind, Except.map]

end FuelBI

namespace FuelBI

/-- C7: in the FIFO report loop, a sale whose per-sale COGS calculation
raises is silently dropped — it contributes nothing to the rows (hence to
`sales_count`), to `total_revenue`, or to `total_cogs`, and the report is
still produced successfully without any record of the dropped sale. -/
theorem claim_C7 (cogs : SaleRow → Except PyErr CogsResult)
    (pre post : List SaleRow) (sale : SaleRow) (e : PyErr)
    (h : cogs sale = .error e) (total_loss_cost : ℚ) :
    processSales cogs (pre ++ sale :: post) = processSales cogs (pre ++ post) ∧
    get_fifo_report cogs (pre ++ sale :: post) total_loss_cost =
      get_fifo_report cogs (pre ++ post) total_loss_cost := by
  have hfail : processSale cogs sale = .error e := by
    simp [processSale, h, Bind.bind, Except.bind]
  have h1 : processSales cogs (pre ++ sale :: post) = processSales cogs (pre ++ post) := by
    induction pre with
    | nil =>
      simp only [List.nil_append]
      rw [processSales, hfail]
    | cons s2 rest ih =>
      simp only [List.cons_append]
      cases hps : processSale cogs s2 with
      | error e2 => rw [processSales, hps, processSales, hps, ih]
      | ok row => rw [processSales, hps, processSales, hps, ih]
  refine ⟨h1, ?_⟩
  unfold get_fifo_report
  rw [h1]

/-- C7 witness: under the stub engine, a concrete failing sale vanishes
from the report without affecting the other sales. -/
theorem claim_C7_witness :
    processSales cogsStub ([saleOk] ++ saleFailing :: []) =
      processSales cogsStub ([saleOk] ++ []) ∧
    get_fifo_report cogsStub ([saleOk] ++ saleFailing :: []) 0 =
      get_fifo_report cogsStub ([saleOk] ++ []) 0 :=
  claim_C7 cogsStub [saleOk] [] saleFailing .typeError (by rfl) 0

/-- C10: the margins and averages of the report and dashboard endpoints
guard their divisions with a strict positivity test on the denominator:
each embedded expression never raises, and each returns 0 when its
denominator is 0. -/
theorem claim_C10 :
    ((∀ profit revenue : ℚ, ∃ q, margin_pct profit revenue = .ok q) ∧
      ∀ profit : ℚ, margin_pct profit 0 = .ok 0) ∧
    ((∀ tp tr : ℚ, ∃ q, overall_margin tp tr = .ok q) ∧
      ∀ tp : ℚ, overall_margin tp 0 = .ok 0) ∧
    ((∀ tp tl tr : ℚ, ∃ q, adjusted_margin tp tl tr = .ok q) ∧
      ∀ tp tl : ℚ, adjusted_margin tp tl 0 = .ok 0) ∧
    ((∀ r v : ℚ, ∃ q, dashboard_avg_price r v = .ok q) ∧
      ∀ r : ℚ, dashboard_avg_price r 0 = .ok 0) ∧
    ((∀ c v : ℚ, ∃ q, dashboard_avg_cost c v = .ok q) ∧
      ∀ c : ℚ, dashboard_avg_cost c 0 = .ok 0) := by
  refine ⟨⟨?_, ?_⟩, ⟨?_, ?_⟩, ⟨?_, ?_⟩, ⟨?_, ?_⟩, ⟨?_, ?_⟩⟩
  · intro profit revenue
    by_cases hr : 0 < revenue
    · exact ⟨profit / revenue * 100, by
        simp [margin_pct, pyDiv, hr, ne_of_gt hr, Except.map]⟩
    · exact ⟨0, by simp [margin_pct, hr]⟩
  · intro profit; simp [margin_pct]
  · intro tp tr
    by_cases hr : 0 < tr
    · exact ⟨tp / tr * 100, by
        simp [overall_margin, pyDiv, hr, ne_of_gt hr, Except.map]⟩
    · exact ⟨0, by simp [overall_margin, hr]⟩
  · intro tp; simp [overall_margin]
  · intro tp tl tr
    by_cases hr : 0 < tr
    · exact ⟨(tp - tl) / tr * 100, by
        simp [adjusted_margin, pyDiv, hr, ne_of_gt hr, Except.map]⟩
    · exact ⟨0, by simp [adjusted_margin, hr]⟩
  · intro tp tl; simp [adjusted_margin]
  · intro r v
    by_cases hv : 0 < v
    · exact ⟨r / v, by simp [dashboard_avg_price, pyDiv, hv, ne_of_gt hv]⟩
    · exact ⟨0, by simp [dashboard_avg_price, hv]⟩
  · intro r; simp [dashboard_avg_price]
  · intro c v
    by_cases hv : 0 < v
    · exact ⟨c / v, by simp [dashboard_avg_cost, pyDiv, hv, ne_of_gt hv]⟩
    · exact ⟨0, by simp [dashboard_avg_cost, hv]⟩
  · intro c; simp [dashboard_avg_cost]

end FuelBI

namespace FuelBI

/-- Iterating the `(combined, match_stats)` tuple makes the first loop
iteration call `.get` on the combined *list*, which raises
`AttributeError` before any record is prepared. -/
theorem import_tuple_attr_error (xs : List PyVal) (stats : PyVal) (cid : Nat) :
    import_combined_sales (.vTuple [.vList xs, stats]) cid =
      .error .attributeError := by
  simp [import_combined_sales, pyIter, prepare_records, import_txn_key, pyGet,
    Bind.bind, Except.bind]

/-- C8: on the success path of `process_month` the 2-tuple returned by
`combine_reports` is passed whole to `import_combined_sales`, whose
per-transaction loop immediately calls `.get` on the combined list and
raises `AttributeError` — so `process_month` never prepares (hence never
imports) a single record, for every parsed input. -/
theorem claim_C8 (vendas : List VTxn) (cupons : List CTxn) (company_id : Nat) :
    process_month vendas cupons company_id = .error .attributeError := by
  unfold process_month
  exact import_tuple_attr_error _ _ company_id

end FuelBI


namespace FuelBI

/-- Appending one cupom transaction grows the lookup by exactly one. -/
theorem lookupSize_append (l : CuponsLookup) (k : MatchKey) (t : CTxn) :
    lookupSize (lookupAppend l k t) = lookupSize l + 1 := by
  induction l with
  | nil => simp [lookupAppend, lookupSize]
  | cons kv rest ih =>
    rcases kv with ⟨k2, ts⟩
    by_cases hk : k2 = k
    · simp [lookupAppend, hk, lookupSize]
      omega
    · simp only [lookupAppend, hk, if_false, lookupSize, List.map_cons,
        List.sum_cons] at *
      omega

/-- The cupons lookup holds exactly one entry per parsed cupom
transaction. -/
theorem buildCuponsLookup_size (cupons_data : List CTxn) :
    lookupSize (buildCuponsLookup cupons_data) = cupons_data.length := by
  suffices h : ∀ (cs : List CTxn) (acc : CuponsLookup),
      lookupSize (cs.foldl
        (fun acc txn =>
          lookupAppend acc
            (create_match_key txn.sale_date (some txn.product_code)
              txn.volume txn.value txn.client) txn) acc) =
        lookupSize acc + cs.length by
    simpa [buildCuponsLookup, lookupSize] using h cupons_data []
  intro cs
  induction cs with
  | nil => intro acc; simp
  | cons t rest ih =>
    intro acc
    simp only [List.foldl_cons, ih, lookupSize_append, List.length_cons]
    omega

/-- Popping the head of a nonempty entry shrinks the lookup by exactly
one. -/
theorem lookupSize_pop (l : CuponsLookup) (k : MatchKey) :
    lookupGet l k ≠ [] →
    lookupSize (lookupPop l k) + 1 = lookupSize l := by
  induction l with
  | nil => intro h; simp [lookupGet] at h
  | cons kv rest ih =>
    intro h
    rcases kv with ⟨k2, ts⟩
    by_cases hk : k2 = k
    · have hts : ts ≠ [] := by
        simpa [lookupGet, List.find?, hk] using h
      cases ts with
      | nil => exact absurd rfl hts
      | cons t ts2 =>
        simp only [lookupPop, hk, if_true, lookupSize, List.map_cons,
          List.sum_cons, List.tail_cons, List.length_cons]
        omega
    · have h2 : lookupGet rest k ≠ [] := by
        simpa [lookupGet, List.find?, hk] using h
      have := ih h2
      simp only [lookupPop, hk, if_false, lookupSize, List.map_cons,
        List.sum_cons] at *
      omega

/-- The matching loop of `combine_reports`: one combined record per
vendas transaction; matched plus unmatched counts the vendas list; each
match removes exactly one cupom entry from the lookup; the unmatched
records are exactly those with `None` cupom-derived fields. -/
theorem combineGo_spec (vendas : List VTxn) :
    ∀ (lookup : CuponsLookup) (cs : List CombinedTxn) (m u : Nat)
      (un : List UnmatchedInfo) (l2 : CuponsLookup),
      combineGo lookup vendas = (cs, m, u, un, l2) →
      cs.length = vendas.length ∧
      m + u = vendas.length ∧
      m + lookupSize l2 = lookupSize lookup ∧
      cs.countP (fun c => c.source_product_code.isNone) = u ∧
      (∀ c ∈ cs, c.source_product_code = none →
        c.cupom_number = none ∧ c.sale_time = none ∧ c.employee = none) := by
  induction vendas with
  | nil =>
    intro lookup cs m u un l2 h
    simp [combineGo] at h
    obtain ⟨rfl, rfl, rfl, rfl, rfl⟩ := h
    simp
  | cons txn rest ih =>
    intro lookup cs m u un l2 h
    simp only [combineGo] at h
    cases hget : lookupGet lookup
        (create_match_key txn.sale_date txn.product_code txn.volume
          txn.value txn.client) with
    | cons ct ts =>
      rw [hget] at h
      rcases hrec : combineGo
          (lookupPop lookup
            (create_match_key txn.sale_date txn.product_code txn.volume
              txn.value txn.client)) rest with ⟨cs1, m1, u1, un1, l21⟩
      rw [hrec] at h
      simp only [Prod.mk.injEq] at h
      obtain ⟨rfl, rfl, rfl, rfl, rfl⟩ := h
      rcases ih _ _ _ _ _ _ hrec with ⟨g1, g2, g3, g4, g5⟩
      have hpop := lookupSize_pop lookup
        (create_match_key txn.sale_date txn.product_code txn.volume
          txn.value txn.client) (by rw [hget]; simp)
      refine ⟨by simp [g1], ?_, ?_, ?_, ?_⟩
      · simp only [List.length_cons]
        omega
      · omega
      · rw [List.countP_cons]
        simp [matchedRecord, g4]
      · intro c hc hnone
        rcases List.mem_cons.1 hc with rfl | htl
        · simp [matchedRecord] at hnone
        · exact g5 c htl hnone
    | nil =>
      rw [hget] at h
      rcases hrec : combineGo lookup rest with ⟨cs1, m1, u1, un1, l21⟩
      rw [hrec] at h
      simp only [Prod.mk.injEq] at h
      obtain ⟨rfl, rfl, rfl, rfl, rfl⟩ := h
      rcases ih _ _ _ _ _ _ hrec with ⟨g1, g2, g3, g4, g5⟩
      refine ⟨by simp [g1], ?_, ?_, ?_, ?_⟩
      · simp only [List.length_cons]
        omega
      · omega
      · rw [List.countP_cons]
        simp [unmatchedRecord, g4]
      · intro c hc hnone
        rcases List.mem_cons.1 hc with rfl | htl
        · simp [unmatchedRecord]
        · exact g5 c htl hnone

/-- C9: `combine_reports` emits exactly one combined record per Vendas
por Bico transaction; `matched + unmatched` equals the vendas count; each
Cupons por Período transaction is consumed by at most one match (matched
plus the cupons still held in the final lookup equals the cupons count);
and the unmatched records are exactly those emitted with the
cupom-derived fields set to `None`. -/
theorem claim_C9 (vendas : List VTxn) (cupons : List CTxn) :
    (combine_reports vendas cupons).1.length = vendas.length ∧
    (combine_reports vendas cupons).2.matched +
      (combine_reports vendas cupons).2.unmatched = vendas.length ∧
    (combine_reports vendas cupons).2.matched +
      lookupSize (combineGo (buildCuponsLookup cupons) vendas).2.2.2.2 =
        cupons.length ∧
    (combine_reports vendas cupons).1.countP
        (fun c => c.source_product_code.isNone) =
      (combine_reports vendas cupons).2.unmatched ∧
    (∀ c ∈ (combine_reports vendas cupons).1, c.source_product_code = none →
      c.cupom_number = none ∧ c.sale_time = none ∧ c.employee = none) := by
  rcases hgo : combineGo (buildCuponsLookup cupons) vendas with ⟨cs, m, u, un, l2⟩
  rcases combineGo_spec vendas _ cs m u un l2 hgo with ⟨g1, g2, g3, g4, g5⟩
  have hcr : combine_reports vendas cupons =
      (cs, { matched := m, unmatched := u, total := cs.length,
             match_rate := if 0 < cs.length then (m : ℚ) / (cs.length : ℚ) * 100 else 0,
             is_perfect_match := u = 0, unmatched_transactions := un }) := by
    simp [combine_reports, hgo]
  rw [hcr]
  exact ⟨g1, g2, g3.trans (buildCuponsLookup_size cupons), g4, g5⟩

end FuelBI
